import Mathlib

/-!
# Verification of the Vectara vector-store adapter

A shallow embedding of `langchain/vectorstores/vectara.py` (class `Vectara`):
document ids derived by MD5 over the UTF-8 encoding of the text, the
`_index_doc` / `_delete_doc` / `add_texts` upsert-with-retry protocol, and the
`similarity_search_with_score` / `similarity_search` result parsing.

Remote responses are modelled as an HTTP status code together with the result
of parsing the body as JSON (`none` when the body is not valid JSON, in which
case `response.json()` raises).  Network interaction is modelled by an
environment `env : Nat → HttpResponse` giving the response to the n-th request
issued by the call, and each operation also returns the ordered list of
requests it issued, so that protocol-shape properties (retry traces, timeouts)
can be stated.
-/

/-- A JSON value, as produced by `response.json()`. Numbers are modelled as
integers/rationals only insofar as the adapter passes them through untouched;
`num` uses `Int` since no claim computes with a score. -/
inductive JVal where
  | null
  | bool (b : Bool)
  | num (n : Int)
  | str (s : String)
  | arr (elems : List JVal)
  | obj (fields : List (String × JVal))
deriving Repr

/-- The Python exceptions the adapter can raise (collapsed to the granularity
the claims distinguish). -/
inductive PyErr where
  | jsonDecodeError
  | keyError
  | typeError
  | indexError
deriving DecidableEq, Repr

/-- Python truthiness of a JSON value (`bool(x)`). -/
def pyTruthy : JVal → Bool
  | .null => false
  | .bool b => b
  | .num n => n != 0
  | .str s => s != ""
  | .arr es => !es.isEmpty
  | .obj fs => !fs.isEmpty

/-- Contiguous-sublist (substring) test, Python `needle in haystack` on
strings. -/
def charsInfix (needle : List Char) : List Char → Bool
  | [] => needle.isEmpty
  | c :: rest => needle.isPrefixOf (c :: rest) || charsInfix needle rest

/-- Python `key in x` for a string key against a parsed JSON value:
key membership for a dict, substring test for a string, element membership for
a list; `in` on a number, boolean or `None` raises `TypeError`. -/
def pyContains (v : JVal) (key : String) : Except PyErr Bool :=
  match v with
  | .obj fs => .ok (fs.lookup key).isSome
  | .str s => .ok (charsInfix key.toList s.toList)
  | .arr es => .ok (es.any fun e => match e with | .str s => s == key | _ => false)
  | .null => .error .typeError
  | .bool _ => .error .typeError
  | .num _ => .error .typeError

/-- Python `x[key]` for a string key: dict lookup (`KeyError` when absent);
subscripting any non-dict with a string key raises `TypeError`. -/
def pyGetItem (v : JVal) (key : String) : Except PyErr JVal :=
  match v with
  | .obj fs =>
    match fs.lookup key with
    | some x => .ok x
    | none => .error .keyError
  | _ => .error .typeError

/-- Python `x == s` for a string `s`: equal only when `x` is that string;
Python equality of a non-string value against a string is `False`. -/
def jvalEqStr (v : JVal) (s : String) : Bool :=
  match v with
  | .str t => t == s
  | _ => false

/-- An HTTP response as the adapter observes it: the status code and the
result of parsing the body as JSON (`none` when `response.json()` would raise
a `JSONDecodeError`). -/
structure HttpResponse where
  status_code : Nat
  body : Option JVal
deriving Repr

/-- `response.json()`. -/
def responseJson (resp : HttpResponse) : Except PyErr JVal :=
  match resp.body with
  | some v => .ok v
  | none => .error .jsonDecodeError

/-! ## MD5 (`hashlib.md5`), used by `add_texts` to derive document ids. -/

namespace MD5

/-- Per-round left-rotate amounts. -/
def shifts : List Nat :=
  [7, 12, 17, 22, 7, 12, 17, 22, 7, 12, 17, 22, 7, 12, 17, 22,
   5, 9, 14, 20, 5, 9, 14, 20, 5, 9, 14, 20, 5, 9, 14, 20,
   4, 11, 16, 23, 4, 11, 16, 23, 4, 11, 16, 23, 4, 11, 16, 23,
   6, 10, 15, 21, 6, 10, 15, 21, 6, 10, 15, 21, 6, 10, 15, 21]

/-- Round constants `floor(abs(sin(i+1)) * 2^32)`. -/
def consts : List Nat :=
  [0xd76aa478, 0xe8c7b756, 0x242070db, 0xc1bdceee,
   0xf57c0faf, 0x4787c62a, 0xa8304613, 0xfd469501,
   0x698098d8, 0x8b44f7af, 0xffff5bb1, 0x895cd7be,
   0x6b901122, 0xfd987193, 0xa679438e, 0x49b40821,
   0xf61e2562, 0xc040b340, 0x265e5a51, 0xe9b6c7aa,
   0xd62f105d, 0x02441453, 0xd8a1e681, 0xe7d3fbc8,
   0x21e1cde6, 0xc33707d6, 0xf4d50d87, 0x455a14ed,
   0xa9e3e905, 0xfcefa3f8, 0x676f02d9, 0x8d2a4c8a,
   0xfffa3942, 0x8771f681, 0x6d9d6122, 0xfde5380c,
   0xa4beea44, 0x4bdecfa9, 0xf6bb4b60, 0xbebfbc70,
   0x289b7ec6, 0xeaa127fa, 0xd4ef3085, 0x04881d05,
   0xd9d4d039, 0xe6db99e5, 0x1fa27cf8, 0xc4ac5665,
   0xf4292244, 0x432aff97, 0xab9423a7, 0xfc93a039,
   0x655b59c3, 0x8f0ccc92, 0xffeff47d, 0x85845dd1,
   0x6fa87e4f, 0xfe2ce6e0, 0xa3014314, 0x4e0811a1,
   0xf7537e82, 0xbd3af235, 0x2ad7d2bb, 0xeb86d391]

def mask32 : Nat := 0xFFFFFFFF

/-- 32-bit left rotation. -/
def rotl (x n : Nat) : Nat := ((x <<< n) ||| (x >>> (32 - n))) &&& mask32

/-- Little-endian byte encoding of `v` on `n` bytes. -/
def lenLE : Nat → Nat → List Nat
  | 0, _ => []
  | n + 1, v => (v % 256) :: lenLE n (v / 256)

/-- MD5 padding: append `0x80`, zero bytes to 56 mod 64, then the bit length
as a 64-bit little-endian integer. -/
def padMsg (msg : List Nat) : List Nat :=
  let len := msg.length
  let zeros := (119 - len % 64) % 64
  msg ++ [0x80] ++ List.replicate zeros 0 ++ lenLE 8 ((8 * len) % 2 ^ 64)

/-- Split a 64-byte block into 16 little-endian 32-bit words. -/
def toWords : List Nat → List Nat
  | b0 :: b1 :: b2 :: b3 :: rest =>
    (b0 + 256 * b1 + 65536 * b2 + 16777216 * b3) :: toWords rest
  | _ => []

/-- One of the 64 MD5 operations on the running `(a, b, c, d)` state. -/
def md5Round (M : List Nat) (st : Nat × Nat × Nat × Nat) (i : Nat) :
    Nat × Nat × Nat × Nat :=
  let (a, b, c, d) := st
  let fg : Nat × Nat :=
    if i < 16 then ((b &&& c) ||| ((b ^^^ mask32) &&& d), i)
    else if i < 32 then ((d &&& b) ||| ((d ^^^ mask32) &&& c), (5 * i + 1) % 16)
    else if i < 48 then (b ^^^ c ^^^ d, (3 * i + 5) % 16)
    else (c ^^^ (b ||| (d ^^^ mask32)), (7 * i) % 16)
  let t := (fg.1 + a + consts.getD i 0 + M.getD fg.2 0) % 2 ^ 32
  (d, (b + rotl t (shifts.getD i 0)) % 2 ^ 32, b, c)

/-- Process one 64-byte block. -/
def processBlock (st : Nat × Nat × Nat × Nat) (block : List Nat) :
    Nat × Nat × Nat × Nat :=
  let M := toWords block
  let r := (List.range 64).foldl (md5Round M) st
  ((st.1 + r.1) % 2 ^ 32, (st.2.1 + r.2.1) % 2 ^ 32,
   (st.2.2.1 + r.2.2.1) % 2 ^ 32, (st.2.2.2 + r.2.2.2) % 2 ^ 32)

/-- Split a padded message into its 64-byte blocks (the padded length is a
multiple of 64). -/
def chunksGo : Nat → List Nat → List (List Nat)
  | 0, _ => []
  | n + 1, l => l.take 64 :: chunksGo n (l.drop 64)

def chunks (l : List Nat) : List (List Nat) := chunksGo (l.length / 64) l

def hexDigit (n : Nat) : Char :=
  if n < 10 then Char.ofNat (48 + n) else Char.ofNat (87 + n)

def byteHex (b : Nat) : List Char := [hexDigit (b / 16), hexDigit (b % 16)]

/-- Hex rendering of one state word, little-endian byte order. -/
def wordHex (w : Nat) : List Char :=
  byteHex (w % 256) ++ byteHex (w / 256 % 256) ++
  byteHex (w / 65536 % 256) ++ byteHex (w / 16777216 % 256)

/-- `hashlib.md5(bytes).hexdigest()`. -/
def md5Hex (msg : List Nat) : String :=
  let st := (chunks (padMsg msg)).foldl processBlock
    (0x67452301, 0xefcdab89, 0x98badcfe, 0x10325476)
  ⟨wordHex st.1 ++ wordHex st.2.1 ++ wordHex st.2.2.1 ++ wordHex st.2.2.2⟩

end MD5

/-- UTF-8 encoding of one character (`str.encode("utf-8")`, per code point). -/
def utf8Char (c : Char) : List Nat :=
  let n := c.toNat
  if n < 0x80 then [n]
  else if n < 0x800 then
    [0xC0 ||| (n >>> 6), 0x80 ||| (n &&& 0x3F)]
  else if n < 0x10000 then
    [0xE0 ||| (n >>> 12), 0x80 ||| ((n >>> 6) &&& 0x3F), 0x80 ||| (n &&& 0x3F)]
  else
    [0xF0 ||| (n >>> 18), 0x80 ||| ((n >>> 12) &&& 0x3F),
     0x80 ||| ((n >>> 6) &&& 0x3F), 0x80 ||| (n &&& 0x3F)]

/-- UTF-8 encoding of a string (`text.encode("utf-8")`). -/
def utf8Bytes (s : String) : List Nat := s.data.flatMap utf8Char

/-- The derived document id: `md5(text.encode("utf-8")).hexdigest()`
(line 141 of `vectara.py`). -/
def derivedId (text : String) : String := MD5.md5Hex (utf8Bytes text)

/-! ## Requests issued by the adapter

Each outbound request carries the `timeout` keyword the source passes to
`requests` (`some 30` for `/v1/index`, `none` for `/v1/delete-doc`,
`some 10` for `/v1/query`). -/

/-- Document metadata, a Python dict modelled as an association list. -/
abbrev Metadata := List (String × JVal)

/-- An outbound HTTP request, as much of it as the claims mention. -/
inductive Request where
  | index (doc_id : String) (text : String) (metadata : Metadata)
      (timeout : Option Nat)
  | deleteDoc (doc_id : String) (timeout : Option Nat)
  | query (q : String) (k : Nat) (alpha : Rat) (filter : Option String)
      (timeout : Option Nat)
deriving Repr

/-- The request `_index_doc` posts to `/v1/index` (`timeout=30`). -/
def indexRequest (doc_id text : String) (metadata : Metadata) : Request :=
  .index doc_id text metadata (some 30)

/-- The request `_delete_doc` posts to `/v1/delete-doc` (no `timeout`). -/
def deleteRequest (doc_id : String) : Request :=
  .deleteDoc doc_id none

/-- The request `similarity_search_with_score` posts to `/v1/query`
(`timeout=10`). -/
def queryRequest (q : String) (k : Nat) (alpha : Rat) (filter : Option String) :
    Request :=
  .query q k alpha filter (some 10)

def Request.timeout : Request → Option Nat
  | .index _ _ _ t => t
  | .deleteDoc _ t => t
  | .query _ _ _ _ t => t

def Request.isIndex : Request → Bool
  | .index _ _ _ _ => true
  | _ => false

def Request.isDelete : Request → Bool
  | .deleteDoc _ _ => true
  | _ => false

/-- The metadata dict of an index request (`none` for other requests). -/
def Request.indexMetadata : Request → Option Metadata
  | .index _ _ md _ => some md
  | _ => none

/-! ## `_index_doc` (lines 98-123) -/

/-- How `_index_doc` interprets the response to its index request:

```python
status_code = response.status_code
result = response.json()
status_str = result["status"]["code"] if "status" in result else None
if status_code == 409 or (status_str and status_str == "ALREADY_EXISTS"):
    return False
else:
    return True
```
-/
def indexDocResult (resp : HttpResponse) : Except PyErr Bool := do
  let result ← responseJson resp
  let hasStatus ← pyContains result "status"
  let status_str : Option JVal ←
    if hasStatus then do
      let st ← pyGetItem result "status"
      let code ← pyGetItem st "code"
      pure (some code)
    else
      pure none
  let conflict := resp.status_code == 409 ||
    (match status_str with
     | none => false
     | some v => pyTruthy v && jvalEqStr v "ALREADY_EXISTS")
  pure (!conflict)

/-- `true` when `_index_doc` returns normally on this response (its body is
JSON the status-extraction path can handle); `false` when it raises. -/
def indexRespOk (resp : HttpResponse) : Bool :=
  match indexDocResult resp with
  | .ok _ => true
  | .error _ => false

/-- `true` exactly when `_index_doc` returns `False` on this response. -/
def upsertReturnsFalse (resp : HttpResponse) : Bool :=
  match indexDocResult resp with
  | .ok false => true
  | _ => false

/-! ## `_delete_doc` (lines 67-96) -/

/-- How `_delete_doc` interprets the response: logs and returns `False` on any
non-200 status, `True` otherwise; the body is never inspected. -/
def deleteDocResult (resp : HttpResponse) : Bool :=
  if resp.status_code ≠ 200 then false else true

/-- The full `_delete_doc` call against an environment: issues exactly one
delete request and interprets the response to it. -/
def delete_doc (doc_id : String) (env : Nat → HttpResponse) :
    Bool × List Request :=
  (deleteDocResult (env 0), [deleteRequest doc_id])

/-! ## `add_texts` (lines 125-149) -/

/-- `metadatas[i] if metadatas else {}`: an empty dict when `metadatas` is
falsy (`None` or the empty list), otherwise `metadatas[i]`, which raises
`IndexError` when `i` is out of range. -/
def getMetadataAt (metadatas : Option (List Metadata)) (i : Nat) :
    Except PyErr Metadata :=
  match metadatas with
  | none => .ok []
  | some [] => .ok []
  | some l =>
    match l.get? i with
    | some m => .ok m
    | none => .error .indexError

/-- One iteration of the `add_texts` loop body for the item with id `doc_id`,
text `doc` and resolved metadata, starting at network-call counter `n`:
one index request; when `_index_doc` returns `False`, one delete request
(whose response, `env (n + 1)`, add_texts ignores) followed by one retry index
request.  Returns the loop-body outcome, the issued requests in order, and the
new call counter. -/
def addOne (doc_id doc : String) (metadata : Metadata)
    (env : Nat → HttpResponse) (n : Nat) :
    Except PyErr Unit × List Request × Nat :=
  match indexDocResult (env n) with
  | .error e => (.error e, [indexRequest doc_id doc metadata], n + 1)
  | .ok true => (.ok (), [indexRequest doc_id doc metadata], n + 1)
  | .ok false =>
    match indexDocResult (env (n + 2)) with
    | .error e =>
      (.error e,
       [indexRequest doc_id doc metadata, deleteRequest doc_id,
        indexRequest doc_id doc metadata], n + 3)
    | .ok _ =>
      (.ok (),
       [indexRequest doc_id doc metadata, deleteRequest doc_id,
        indexRequest doc_id doc metadata], n + 3)

/-- The `for i, doc in enumerate(texts)` loop of `add_texts`, with `i` the
enumeration index and `n` the network-call counter.  `ids[i]` is
`derivedId doc` since `ids = [md5(text.encode("utf-8")).hexdigest() for text
in texts]` is the pointwise image of `texts`. -/
def addLoop (env : Nat → HttpResponse) (metadatas : Option (List Metadata)) :
    List String → Nat → Nat → Except PyErr Unit × List Request
  | [], _, _ => (.ok (), [])
  | doc :: rest, i, n =>
    match getMetadataAt metadatas i with
    | .error e => (.error e, [])
    | .ok metadata =>
      match addOne (derivedId doc) doc metadata env n with
      | (.error e, log, _) => (.error e, log)
      | (.ok (), log, n2) =>
        match addLoop env metadatas rest (i + 1) n2 with
        | (r2, log2) => (r2, log ++ log2)

/-- `add_texts(texts, metadatas)`: computes all ids up front, runs the loop,
and returns the ids (the loop's exception, if any, propagates instead).
Second component: the ordered list of requests issued before returning or
raising. -/
def add_texts (texts : List String) (metadatas : Option (List Metadata))
    (env : Nat → HttpResponse) :
    Except PyErr (List String) × List Request :=
  let ids := texts.map derivedId
  match addLoop env metadatas texts 0 0 with
  | (.ok (), log) => (.ok ids, log)
  | (.error e, log) => (.error e, log)

/-! ## `similarity_search_with_score` (lines 151-228) -/

/-- `langchain.schema.Document`, as far as the adapter populates it. -/
structure Document where
  page_content : String
  metadata : List (String × JVal)
deriving Repr

/-- One insertion into a Python dict: overwrite in place when the key is
present, append otherwise. -/
def dictInsert (d : List (String × JVal)) (k : String) (v : JVal) :
    List (String × JVal) :=
  if (d.lookup k).isSome then
    d.map fun p => if p.1 = k then (k, v) else p
  else
    d ++ [(k, v)]

/-- A Python dict comprehension over a list of (key, value) pairs: left to
right insertion, later duplicate keys overwrite earlier values in place. -/
def dictOfPairs (ps : List (String × JVal)) : List (String × JVal) :=
  ps.foldl (fun d p => dictInsert d p.1 p.2) []

/-- `vectara_default_metadata = ["lang", "len", "offset"]` (line 213). -/
def vectaraDefaultMetadata : List String := ["lang", "len", "offset"]

/-- One remote search hit of the shape the `/v1/query` endpoint documents:
`{text, score, metadata: [{name, value}, ...]}`. -/
structure Hit where
  text : String
  score : JVal
  meta : List (String × JVal)
deriving Repr

/-- Parse one hit's `metadata` array into its (name, value) pairs; `none`
when it is not an array of objects with a string `name` and a `value`. -/
def parseMeta : JVal → Option (List (String × JVal))
  | .arr ms =>
    ms.mapM fun m =>
      match m with
      | .obj fs =>
        match fs.lookup "name", fs.lookup "value" with
        | some (.str name), some v => some (name, v)
        | _, _ => none
      | _ => none
  | _ => none

/-- Parse one element of `result["responseSet"][0]["response"]`. -/
def parseHit : JVal → Option Hit
  | .obj fs =>
    match fs.lookup "text", fs.lookup "score", fs.lookup "metadata" with
    | some (.str t), some sc, some mv =>
      match parseMeta mv with
      | some ms => some ⟨t, sc, ms⟩
      | none => none
    | _, _, _ => none
  | _ => none

/-- Parse a 200-response body into the hit list the code iterates over:
`result["responseSet"][0]["response"]` with each element of the documented
hit shape.  `none` models the exception the code raises on any body outside
that shape. -/
def parseHits : JVal → Option (List Hit)
  | .obj fs =>
    match fs.lookup "responseSet" with
    | some (.arr (first :: _)) =>
      match first with
      | .obj gs =>
        match gs.lookup "response" with
        | some (.arr xs) => xs.mapM parseHit
        | _ => none
      | _ => none
    | _ => none
  | _ => none

/-- The Document-score pair built from one hit: content is the hit's text,
metadata is the dict comprehension over the hit's entries whose names are not
in `vectara_default_metadata`, score is the hit's score. -/
def hitToPair (h : Hit) : Document × JVal :=
  (⟨h.text, dictOfPairs (h.meta.filter fun p => !vectaraDefaultMetadata.contains p.1)⟩,
   h.score)

/-- How `similarity_search_with_score` interprets the response: on any
non-200 status it logs and returns `[]` without touching the body; on a 200
it parses the body (raising on a malformed one) and maps each hit to its
Document-score pair, preserving the remote order. -/
def searchWithScoreResult (resp : HttpResponse) :
    Except PyErr (List (Document × JVal)) :=
  if resp.status_code ≠ 200 then
    .ok []
  else
    match resp.body with
    | none => .error .jsonDecodeError
    | some v =>
      match parseHits v with
      | some hits => .ok (hits.map hitToPair)
      | none => .error .typeError

/-- How `similarity_search` post-processes: `[doc for doc, _ in
docs_and_scores]`, with any exception from the inner call propagating. -/
def searchResult (resp : HttpResponse) : Except PyErr (List Document) :=
  match searchWithScoreResult resp with
  | .ok ds => .ok (ds.map Prod.fst)
  | .error e => .error e

/-- The full `similarity_search_with_score` call against an environment:
issues exactly one query request (with `timeout=10`) and interprets the
response to it. -/
def similarity_search_with_score (q : String) (k : Nat) (alpha : Rat)
    (filter : Option String) (env : Nat → HttpResponse) :
    Except PyErr (List (Document × JVal)) × List Request :=
  (searchWithScoreResult (env 0), [queryRequest q k alpha filter])

/-- The full `similarity_search` call against an environment. -/
def similarity_search (q : String) (k : Nat) (alpha : Rat)
    (filter : Option String) (env : Nat → HttpResponse) :
    Except PyErr (List Document) × List Request :=
  (searchResult (env 0), [queryRequest q k alpha filter])

/-! ## The request trace the spec describes for `AddTexts`

Stated from the spec's words ("If Upsert reports already exists (returns
false), the adapter performs Delete(id) followed by one retry of Upsert"),
to be compared with the trace the embedded `add_texts` produces. -/

/-- The spec's per-item trace: one index request; on conflict, a delete and
one retry index request, in that order, and nothing further. -/
def specItemTrace (doc_id text : String) (metadata : Metadata)
    (conflict : Bool) : List Request :=
  if conflict then
    [indexRequest doc_id text metadata, deleteRequest doc_id,
     indexRequest doc_id text metadata]
  else
    [indexRequest doc_id text metadata]

/-- The spec's whole-call trace: items processed in order, each contributing
its `specItemTrace`, where an item's conflict bit is whether its first upsert
returned false (and a conflicting item consumes three responses, a clean one
a single response). -/
def specAddTrace (env : Nat → HttpResponse)
    (metadatas : Option (List Metadata)) :
    List String → Nat → Nat → List Request
  | [], _, _ => []
  | doc :: rest, i, n =>
    let metadata := ((getMetadataAt metadatas i).toOption).getD []
    let c := upsertReturnsFalse (env n)
    specItemTrace (derivedId doc) doc metadata c ++
      specAddTrace env metadatas rest (i + 1) (n + if c then 3 else 1)

/-! ## Lemmas -/

theorem indexRespOk_exists {resp : HttpResponse} (h : indexRespOk resp = true) :
    ∃ b, indexDocResult resp = .ok b := by
  unfold indexRespOk at h
  cases hr : indexDocResult resp with
  | ok b => exact ⟨b, rfl⟩
  | error e => rw [hr] at h; cases h

/-- When every index response is one `_index_doc` handles without raising and
every enumeration position has a metadata entry, the `add_texts` loop returns
normally and issues exactly the spec's trace. -/
theorem addLoop_spec (env : Nat → HttpResponse)
    (metadatas : Option (List Metadata)) (texts : List String) (i n : Nat)
    (He : ∀ m, indexRespOk (env m) = true)
    (Hm : ∀ j, j < texts.length → ∃ md, getMetadataAt metadatas (i + j) = .ok md) :
    addLoop env metadatas texts i n =
      (.ok (), specAddTrace env metadatas texts i n) := by
  induction texts generalizing i n with
  | nil => rfl
  | cons doc rest ih =>
    obtain ⟨md, hmd⟩ := Hm 0 (by simp)
    rw [Nat.add_zero] at hmd
    obtain ⟨b, hb⟩ := indexRespOk_exists (He n)
    have Hm2 : ∀ j, j < rest.length →
        ∃ md, getMetadataAt metadatas (i + 1 + j) = .ok md := by
      intro j hj
      have := Hm (j + 1) (by simpa using Nat.succ_lt_succ hj)
      simpa [Nat.add_comm, Nat.add_assoc, Nat.add_left_comm] using this
    cases b with
    | true =>
      have hc : upsertReturnsFalse (env n) = false := by
        unfold upsertReturnsFalse; rw [hb]
      simp only [addLoop, specAddTrace, hmd, addOne, hb, hc, specItemTrace,
        Except.toOption, Option.getD, if_neg, Bool.false_eq_true,
        ite_false, ih (i + 1) (n + 1) Hm2]
    | false =>
      have hc : upsertReturnsFalse (env n) = true := by
        unfold upsertReturnsFalse; rw [hb]
      obtain ⟨b2, hb2⟩ := indexRespOk_exists (He (n + 2))
      simp only [addLoop, specAddTrace, hmd, addOne, hb, hb2, hc, specItemTrace,
        Except.toOption, Option.getD, ite_true, ih (i + 1) (n + 3) Hm2]

/-- A response with a 200 status and an empty JSON-object body: `_index_doc`
reads it as success. -/
def plainOkResp : HttpResponse := ⟨200, some (.obj [])⟩

/-- An environment in which every request succeeds without conflict. -/
def allOkEnv : Nat → HttpResponse := fun _ => plainOkResp

/-- A 409 response with an empty JSON-object body: `_index_doc` reads it as a
conflict. -/
def conflict409Resp : HttpResponse := ⟨409, some (.obj [])⟩

/-- An environment whose first response is a conflict and whose later
responses succeed. -/
def conflictFirstEnv : Nat → HttpResponse := fun n =>
  match n with
  | 0 => conflict409Resp
  | _ + 1 => plainOkResp

/-- Whenever `add_texts` returns normally, it returns the derived ids. -/
theorem addTexts_ok_ids {texts : List String} {metadatas env ids}
    (h : (add_texts texts metadatas env).1 = .ok ids) :
    ids = texts.map derivedId := by
  unfold add_texts at h
  cases hl : addLoop env metadatas texts 0 0 with
  | mk r log =>
    cases r with
    | ok u => cases u; rw [hl] at h; simp at h; exact h.symm
    | error e => rw [hl] at h; simp at h

/-- Under a non-raising environment and adequate metadata, `add_texts`
returns the derived ids. -/
theorem addTexts_ok_of_wf (texts : List String)
    (metadatas : Option (List Metadata)) (env : Nat → HttpResponse)
    (He : ∀ m, indexRespOk (env m) = true)
    (Hm : ∀ j, j < texts.length → ∃ md, getMetadataAt metadatas j = .ok md) :
    (add_texts texts metadatas env).1 = .ok (texts.map derivedId) := by
  have h := addLoop_spec env metadatas texts 0 0 He (by simpa using Hm)
  simp [add_texts, h]

/-! ## Claims -/

/-- C1: for every `AddTexts` call (over responses `_index_doc` handles
without raising, with metadata available for every position), the issued
request trace is exactly the spec's: per item one index request, and, exactly
when the first upsert returned false, one delete followed by one retry index
request, in that order and nothing further — so a conflicting item causes
three round trips (index, delete, re-index) and a clean item exactly one. -/
theorem addTexts_conflict_retry_trace (texts : List String)
    (metadatas : Option (List Metadata)) (env : Nat → HttpResponse)
    (He : ∀ m, indexRespOk (env m) = true)
    (Hm : ∀ j, j < texts.length → ∃ md, getMetadataAt metadatas j = .ok md) :
    (add_texts texts metadatas env).2 = specAddTrace env metadatas texts 0 0 := by
  have h := addLoop_spec env metadatas texts 0 0 He (by simpa using Hm)
  simp [add_texts, h]

/-- Witness for C1: a one-item call whose first response is a 409 conflict
issues exactly index, delete, re-index. -/
theorem addTexts_conflict_retry_trace_witness :
    (add_texts ["hello world"] none conflictFirstEnv).2 =
      specAddTrace conflictFirstEnv none ["hello world"] 0 0 :=
  addTexts_conflict_retry_trace ["hello world"] none conflictFirstEnv
    (fun m => by cases m <;> rfl) (fun _ _ => ⟨[], rfl⟩)

/-- C2: the derived document id is a deterministic function of the UTF-8
encoding of the text; `AddTexts(["hello world"])` derives
`"5eb63bbbe01eeed093cb22bb8f5acdc3"`; and any two `add_texts` calls that
return normally on identical texts return identical id lists. -/
theorem derivedId_deterministic :
    (∀ t₁ t₂ : String, utf8Bytes t₁ = utf8Bytes t₂ → derivedId t₁ = derivedId t₂) ∧
    derivedId "hello world" = "5eb63bbbe01eeed093cb22bb8f5acdc3" ∧
    (∀ (texts : List String) metadatas env₁ env₂ ids₁ ids₂,
      (add_texts texts metadatas env₁).1 = .ok ids₁ →
      (add_texts texts metadatas env₂).1 = .ok ids₂ → ids₁ = ids₂) := by
  refine ⟨fun t₁ t₂ h => congrArg MD5.md5Hex h, by rfl, ?_⟩
  intro texts metadatas env₁ env₂ ids₁ ids₂ h₁ h₂
  rw [addTexts_ok_ids h₁, addTexts_ok_ids h₂]

/-- Witness for C2, at `"hello world"` and two concrete all-success calls. -/
theorem derivedId_deterministic_witness :
    derivedId "hello world" = "5eb63bbbe01eeed093cb22bb8f5acdc3" ∧
    ([derivedId "hello world"] : List String) = [derivedId "hello world"] :=
  ⟨derivedId_deterministic.2.1,
   derivedId_deterministic.2.2 ["hello world"] none allOkEnv allOkEnv _ _
     (addTexts_ok_of_wf ["hello world"] none allOkEnv
       (fun _ => rfl) (fun _ _ => ⟨[], rfl⟩))
     (addTexts_ok_of_wf ["hello world"] none allOkEnv
       (fun _ => rfl) (fun _ _ => ⟨[], rfl⟩))⟩

/-- C6: `add_texts` returns the ordered list of derived ids, one per input
text, and the returned value does not depend on which upserts or deletes
succeeded (here: two arbitrary non-raising environments give the same ids). -/
theorem addTexts_returns_ids (texts : List String)
    (metadatas : Option (List Metadata)) (env₁ env₂ : Nat → HttpResponse)
    (He₁ : ∀ m, indexRespOk (env₁ m) = true)
    (He₂ : ∀ m, indexRespOk (env₂ m) = true)
    (Hm : ∀ j, j < texts.length → ∃ md, getMetadataAt metadatas j = .ok md) :
    (add_texts texts metadatas env₁).1 = .ok (texts.map derivedId) ∧
    (add_texts texts metadatas env₁).1 = (add_texts texts metadatas env₂).1 := by
  have h1 := addTexts_ok_of_wf texts metadatas env₁ He₁ Hm
  have h2 := addTexts_ok_of_wf texts metadatas env₂ He₂ Hm
  exact ⟨h1, h1.trans h2.symm⟩

/-- Witness for C6: a conflicting run and a clean run return the same ids. -/
theorem addTexts_returns_ids_witness :
    (add_texts ["hello world"] none conflictFirstEnv).1 =
      .ok [derivedId "hello world"] ∧
    (add_texts ["hello world"] none conflictFirstEnv).1 =
      (add_texts ["hello world"] none allOkEnv).1 :=
  addTexts_returns_ids ["hello world"] none conflictFirstEnv allOkEnv
    (fun m => by cases m <;> rfl) (fun _ => rfl) (fun _ _ => ⟨[], rfl⟩)

theorem truthy_and_eqStr (code : JVal) :
    (pyTruthy code && jvalEqStr code "ALREADY_EXISTS") = true ↔
      code = .str "ALREADY_EXISTS" := by
  cases code <;> simp [pyTruthy, jvalEqStr]
  rename_i s
  intro h; subst h; decide

theorem indexDocResult_obj_none {resp : HttpResponse} {fs : List (String × JVal)}
    (hbody : resp.body = some (.obj fs))
    (hst : fs.lookup "status" = none) :
    indexDocResult resp = .ok (!(resp.status_code == 409)) := by
  simp [indexDocResult, responseJson, hbody, pyContains, hst, Except.bind,
    Bind.bind, Except.map, Functor.map, Except.pure, Pure.pure]

theorem indexDocResult_obj_code {resp : HttpResponse}
    {fs gs : List (String × JVal)} {code : JVal}
    (hbody : resp.body = some (.obj fs))
    (hst : fs.lookup "status" = some (.obj gs))
    (hcode : gs.lookup "code" = some code) :
    indexDocResult resp =
      .ok (!(resp.status_code == 409 ||
        (pyTruthy code && jvalEqStr code "ALREADY_EXISTS"))) := by
  simp [indexDocResult, responseJson, hbody, pyContains, pyGetItem, hst, hcode,
    Except.bind, Bind.bind, Except.map, Functor.map, Except.pure, Pure.pure]

/-- The response "reports a conflict": HTTP 409, or a body whose status code
field is the string `"ALREADY_EXISTS"`. -/
def reportsConflict (resp : HttpResponse) : Prop :=
  resp.status_code = 409 ∨
  ∃ fs gs, resp.body = some (.obj fs) ∧
    fs.lookup "status" = some (.obj gs) ∧
    gs.lookup "code" = some (.str "ALREADY_EXISTS")

/-- The body's `status` field, when present, is an object with a `code`
field. -/
def wfStatusField (fs : List (String × JVal)) : Bool :=
  match fs.lookup "status" with
  | none => true
  | some (.obj gs) => (gs.lookup "code").isSome
  | some _ => false

/-- Counterexample to C3 as stated: on a 500 response whose body is not
valid JSON — a genuine application error that reports no conflict —
`_index_doc` raises `JSONDecodeError` (the code calls `response.json()`
before any status check) instead of returning `true`. -/
theorem c3_counterexample :
    indexDocResult ⟨500, none⟩ = .error .jsonDecodeError := rfl

/-- C3 (amended): over responses whose body is valid JSON and whose `status`
field, when present, is an object carrying a `code`, `_index_doc` returns
`false` exactly when the response reports a conflict (HTTP 409, or a
`status.code` equal to `"ALREADY_EXISTS"`) and `true` on every other such
response; outside that shape it raises instead (see the counterexample). -/
theorem indexDoc_conflict_iff (resp : HttpResponse) (fs : List (String × JVal))
    (hbody : resp.body = some (.obj fs))
    (hwf : wfStatusField fs = true) :
    (indexDocResult resp = .ok false ↔ reportsConflict resp) ∧
    (indexDocResult resp = .ok true ↔ ¬ reportsConflict resp) := by
  unfold wfStatusField at hwf
  cases hst : fs.lookup "status" with
  | none =>
    have hres := indexDocResult_obj_none hbody hst
    have hrc : reportsConflict resp ↔ resp.status_code = 409 := by
      constructor
      · rintro (h | ⟨fs', gs, hb, hs, _⟩)
        · exact h
        · rw [hbody] at hb
          obtain rfl : fs = fs' := by
            injection hb with hb2; injection hb2
          rw [hst] at hs; cases hs
      · exact Or.inl
    rw [hres, hrc]
    by_cases h409 : resp.status_code = 409 <;> simp [h409]
  | some v =>
    rw [hst] at hwf
    cases v with
    | obj gs =>
      simp only [Option.isSome_iff_exists] at hwf
      obtain ⟨code, hcode⟩ := hwf
      have hres := indexDocResult_obj_code hbody hst hcode
      have hrc : reportsConflict resp ↔
          (resp.status_code = 409 ∨ code = .str "ALREADY_EXISTS") := by
        constructor
        · rintro (h | ⟨fs', gs', hb, hs, hc⟩)
          · exact Or.inl h
          · rw [hbody] at hb
            obtain rfl : fs = fs' := by
              injection hb with hb2; injection hb2
            rw [hst] at hs
            obtain rfl : gs = gs' := by
              injection hs with hs2; injection hs2
            rw [hcode] at hc
            exact Or.inr (Option.some.inj hc)
        · rintro (h | h)
          · exact Or.inl h
          · exact Or.inr ⟨fs, gs, hbody, hst, by rw [hcode, h]⟩
      rw [hres, hrc]
      by_cases h409 : resp.status_code = 409
      · simp [h409]
      · by_cases hae : code = .str "ALREADY_EXISTS"
        · simp only [hae, h409] at hres ⊢
          simp [hres, pyTruthy, jvalEqStr]
        · have hfalse : (pyTruthy code && jvalEqStr code "ALREADY_EXISTS") = false := by
            cases hb : (pyTruthy code && jvalEqStr code "ALREADY_EXISTS")
            · rfl
            · exact absurd ((truthy_and_eqStr code).mp hb) hae
          simp [h409, hae, hfalse]
    | null => simp at hwf
    | bool b => simp at hwf
    | num n => simp at hwf
    | str s => simp at hwf
    | arr es => simp at hwf

/-- Witness for C3 (amended), at a 409 response with an empty object body. -/
theorem indexDoc_conflict_iff_witness :
    (indexDocResult ⟨409, some (.obj [])⟩ = .ok false ↔
      reportsConflict ⟨409, some (.obj [])⟩) ∧
    (indexDocResult ⟨409, some (.obj [])⟩ = .ok true ↔
      ¬ reportsConflict ⟨409, some (.obj [])⟩) :=
  indexDoc_conflict_iff ⟨409, some (.obj [])⟩ [] rfl rfl

/-- C4: on any response with a non-200 status, `similarity_search_with_score`
raises nothing and returns the empty list — the body is never inspected, so
a failed request is indistinguishable from a query with no matches. -/
theorem searchWithScore_non200_empty (q : String) (k : Nat) (alpha : Rat)
    (filter : Option String) (env : Nat → HttpResponse)
    (h : (env 0).status_code ≠ 200) :
    (similarity_search_with_score q k alpha filter env).1 = .ok [] := by
  simp [similarity_search_with_score, searchWithScoreResult, h]

theorem searchWithScore_non200_empty_witness :
    (similarity_search_with_score "nato" 3 (1 / 40) none
      (fun _ => ⟨500, none⟩)).1 = .ok [] :=
  searchWithScore_non200_empty "nato" 3 (1 / 40) none (fun _ => ⟨500, none⟩)
    (by decide)

/-- C7: for every query, k, alpha, filter and environment,
`similarity_search` returns exactly the first components of
`similarity_search_with_score`, in order, scores discarded (including the
error cases, which propagate identically), and it issues the same single
query request. -/
theorem search_eq_searchWithScore_fst (q : String) (k : Nat) (alpha : Rat)
    (filter : Option String) (env : Nat → HttpResponse) :
    (similarity_search q k alpha filter env).1 =
      Except.map (List.map Prod.fst)
        ((similarity_search_with_score q k alpha filter env).1) ∧
    (similarity_search q k alpha filter env).2 =
      (similarity_search_with_score q k alpha filter env).2 := by
  refine ⟨?_, rfl⟩
  show searchResult (env 0) = Except.map _ (searchWithScoreResult (env 0))
  unfold searchResult
  cases searchWithScoreResult (env 0) <;> rfl

/-- C8: `_delete_doc` returns `false` exactly when the response status is
not 200 and `true` otherwise, never raising, and it issues exactly one
delete request per call — no retry. -/
theorem deleteDoc_result_and_trace (doc_id : String)
    (env : Nat → HttpResponse) :
    ((delete_doc doc_id env).1 = false ↔ (env 0).status_code ≠ 200) ∧
    (delete_doc doc_id env).2 = [deleteRequest doc_id] := by
  refine ⟨?_, rfl⟩
  show deleteDocResult (env 0) = false ↔ _
  unfold deleteDocResult
  by_cases h : (env 0).status_code = 200 <;> simp [h]

theorem lookup_eq_none_of_not_mem {k : String} {d : List (String × JVal)}
    (h : k ∉ d.map Prod.fst) : d.lookup k = none := by
  induction d with
  | nil => rfl
  | cons p rest ih =>
    simp only [List.map_cons, List.mem_cons] at h
    push_neg at h
    have hne : (k == p.1) = false := by
      simp [h.1]
    cases p with
    | mk k2 v =>
      simp only [List.lookup]
      rw [hne]
      exact ih h.2

theorem dictOfPairs_aux (ps acc : List (String × JVal))
    (h : ((acc ++ ps).map Prod.fst).Nodup) :
    ps.foldl (fun d p => dictInsert d p.1 p.2) acc = acc ++ ps := by
  induction ps generalizing acc with
  | nil => simp
  | cons p rest ih =>
    have hmem : p.1 ∉ acc.map Prod.fst := by
      simp only [List.map_append, List.nodup_append] at h
      intro hin
      exact h.2.2 hin (by simp)
    have hins : dictInsert acc p.1 p.2 = acc ++ [p] := by
      unfold dictInsert
      rw [lookup_eq_none_of_not_mem hmem]
      simp
    have h2 : (((acc ++ [p]) ++ rest).map Prod.fst).Nodup := by
      simpa using h
    simpa [hins, List.append_assoc] using ih (acc ++ [p]) h2

/-- A Python dict built from pairs with pairwise-distinct keys is those pairs
in order. -/
theorem dictOfPairs_nodup (ps : List (String × JVal))
    (h : (ps.map Prod.fst).Nodup) : dictOfPairs ps = ps := by
  simpa using dictOfPairs_aux ps [] (by simpa using h)

/-- C5: on every 200 response whose body parses into the documented hit-list
shape, with each hit's metadata names pairwise distinct,
`similarity_search_with_score` returns one (Document, score) pair per hit in
the remote order, with content the hit's text, score the hit's score, and
metadata exactly the hit's entries whose names are not in
`["lang", "len", "offset"]`, passed through unchanged. -/
theorem searchWithScore_200_hits (resp : HttpResponse) (v : JVal)
    (hits : List Hit)
    (h200 : resp.status_code = 200)
    (hbody : resp.body = some v)
    (hparse : parseHits v = some hits)
    (hnodup : ∀ h ∈ hits, (h.meta.map Prod.fst).Nodup) :
    searchWithScoreResult resp =
      .ok (hits.map fun h =>
        (⟨h.text, h.meta.filter fun p => !vectaraDefaultMetadata.contains p.1⟩,
         h.score)) := by
  unfold searchWithScoreResult
  rw [h200, hbody]
  simp only [ne_eq, not_true_eq_false, ite_false, hparse]
  congr 1
  refine List.map_congr_left fun h hmem => ?_
  unfold hitToPair
  have hsub : ((h.meta.filter fun p => !vectaraDefaultMetadata.contains p.1).map
      Prod.fst).Nodup :=
    ((List.filter_sublist h.meta).map Prod.fst).nodup (hnodup h hmem)
  rw [dictOfPairs_nodup _ hsub]

/-- The spec's mocked 3-hit, 200-status `Search("nato", k=3)` response body. -/
def mockedNatoBody : JVal :=
  .obj [("responseSet", .arr [.obj [("response", .arr [
    .obj [("text", .str "doc one"), ("score", .num 9),
          ("metadata", .arr [
            .obj [("name", .str "lang"), ("value", .str "eng")],
            .obj [("name", .str "len"), ("value", .num 7)],
            .obj [("name", .str "offset"), ("value", .num 0)],
            .obj [("name", .str "source"), ("value", .str "s1")]])],
    .obj [("text", .str "doc two"), ("score", .num 5),
          ("metadata", .arr [
            .obj [("name", .str "lang"), ("value", .str "deu")],
            .obj [("name", .str "source"), ("value", .str "s2")]])],
    .obj [("text", .str "doc three"), ("score", .num 2),
          ("metadata", .arr [
            .obj [("name", .str "offset"), ("value", .num 3)]])]])]])]

/-- The hits of `mockedNatoBody`. -/
def mockedNatoHits : List Hit :=
  [⟨"doc one", .num 9,
    [("lang", .str "eng"), ("len", .num 7), ("offset", .num 0),
     ("source", .str "s1")]⟩,
   ⟨"doc two", .num 5, [("lang", .str "deu"), ("source", .str "s2")]⟩,
   ⟨"doc three", .num 2, [("offset", .num 3)]⟩]

/-- Witness for C5: the mocked response yields exactly 3 documents in order,
each with `lang`/`len`/`offset` stripped and other entries kept. -/
theorem searchWithScore_200_hits_witness :
    searchWithScoreResult ⟨200, some mockedNatoBody⟩ =
      .ok (mockedNatoHits.map fun h =>
        (⟨h.text, h.meta.filter fun p => !vectaraDefaultMetadata.contains p.1⟩,
         h.score)) :=
  searchWithScore_200_hits ⟨200, some mockedNatoBody⟩ mockedNatoBody
    mockedNatoHits rfl rfl rfl (by decide)

/-- Every request the `add_texts` loop issues is one of its index requests
(`timeout=30`) or delete requests (no timeout). -/
theorem addLoop_requests (env : Nat → HttpResponse)
    (metadatas : Option (List Metadata)) (texts : List String) (i n : Nat) :
    ∀ r ∈ (addLoop env metadatas texts i n).2,
      (∃ id t md, r = indexRequest id t md) ∨ ∃ id, r = deleteRequest id := by
  induction texts generalizing i n with
  | nil => intro r hr; cases hr
  | cons doc rest ih =>
    intro r hr
    unfold addLoop at hr
    cases hmd : getMetadataAt metadatas i with
    | error e => rw [hmd] at hr; cases hr
    | ok md =>
      rw [hmd] at hr
      unfold addOne at hr
      cases hb : indexDocResult (env n) with
      | error e =>
        rw [hb] at hr
        simp only [List.mem_cons, List.not_mem_nil, or_false] at hr
        exact Or.inl ⟨_, _, _, hr⟩
      | ok b =>
        cases b with
        | true =>
          rw [hb] at hr
          simp only [List.mem_append, List.mem_cons, List.not_mem_nil, or_false] at hr
          rcases hr with hr | hr
          · exact Or.inl ⟨_, _, _, hr⟩
          · exact ih (i + 1) (n + 1) r hr
        | false =>
          rw [hb] at hr
          cases hb2 : indexDocResult (env (n + 2)) with
          | error e =>
            rw [hb2] at hr
            simp only [List.mem_cons, List.not_mem_nil, or_false] at hr
            rcases hr with hr | hr | hr
            · exact Or.inl ⟨_, _, _, hr⟩
            · exact Or.inr ⟨_, hr⟩
            · exact Or.inl ⟨_, _, _, hr⟩
          | ok b2 =>
            rw [hb2] at hr
            simp only [List.mem_append, List.mem_cons, List.not_mem_nil, or_false] at hr
            rcases hr with (hr | hr | hr) | hr
            · exact Or.inl ⟨_, _, _, hr⟩
            · exact Or.inr ⟨_, hr⟩
            · exact Or.inl ⟨_, _, _, hr⟩
            · exact ih (i + 1) (n + 3) r hr

/-- C9: every index request is issued with `timeout=30`, every query request
with `timeout=10`, every delete request with no timeout at all — both inside
`add_texts` (whose only requests are its index and delete requests) and in
the standalone search and delete operations. -/
theorem request_timeouts :
    (∀ (texts : List String) metadatas env r,
      r ∈ (add_texts texts metadatas env).2 →
        (r.isIndex = true ∧ r.timeout = some 30) ∨
        (r.isDelete = true ∧ r.timeout = none)) ∧
    (∀ (q : String) (k : Nat) (alpha : Rat) (filter : Option String) env,
      (similarity_search_with_score q k alpha filter env).2 =
        [queryRequest q k alpha filter] ∧
      (queryRequest q k alpha filter).timeout = some 10) ∧
    (∀ (doc_id : String) env,
      (delete_doc doc_id env).2 = [deleteRequest doc_id] ∧
      (deleteRequest doc_id).timeout = none) := by
  refine ⟨?_, fun q k alpha filter env => ⟨rfl, rfl⟩,
    fun doc_id env => ⟨rfl, rfl⟩⟩
  intro texts metadatas env r hr
  have hlog : (add_texts texts metadatas env).2 =
      (addLoop env metadatas texts 0 0).2 := by
    unfold add_texts
    cases addLoop env metadatas texts 0 0 with
    | mk res log =>
      cases res with
      | ok u => cases u; rfl
      | error e => rfl
  have hr2 : r ∈ (addLoop env metadatas texts 0 0).2 := hlog ▸ hr
  rcases addLoop_requests env metadatas texts 0 0 r hr2 with
    ⟨id, t, md, rfl⟩ | ⟨id, rfl⟩
  · exact Or.inl ⟨rfl, rfl⟩
  · exact Or.inr ⟨rfl, rfl⟩

/-- Witness for C9: the single index request of a clean one-item `add_texts`
run carries `timeout=30`. -/
theorem request_timeouts_witness :
    ((indexRequest (derivedId "hello world") "hello world" []).isIndex = true ∧
      (indexRequest (derivedId "hello world") "hello world" []).timeout = some 30) ∨
    ((indexRequest (derivedId "hello world") "hello world" []).isDelete = true ∧
      (indexRequest (derivedId "hello world") "hello world" []).timeout = none) :=
  request_timeouts.1 ["hello world"] none allOkEnv
    (indexRequest (derivedId "hello world") "hello world" [])
    (List.mem_singleton.mpr rfl)

/-- When every position resolves to the empty dict (falsy `metadatas`), every
index request the loop issues carries empty metadata. -/
theorem addLoop_meta_empty (env : Nat → HttpResponse)
    (metadatas : Option (List Metadata))
    (hm : ∀ i, getMetadataAt metadatas i = .ok [])
    (texts : List String) (i n : Nat) :
    ∀ r ∈ (addLoop env metadatas texts i n).2, ∀ md,
      r.indexMetadata = some md → md = [] := by
  induction texts generalizing i n with
  | nil => intro r hr; cases hr
  | cons doc rest ih =>
    intro r hr md hmd
    unfold addLoop at hr
    rw [hm i] at hr
    unfold addOne at hr
    cases hb : indexDocResult (env n) with
    | error e =>
      rw [hb] at hr
      simp only [List.mem_cons, List.not_mem_nil, or_false] at hr
      subst hr
      simp [indexRequest, Request.indexMetadata] at hmd
      exact hmd
    | ok b =>
      cases b with
      | true =>
        rw [hb] at hr
        simp only [List.mem_append, List.mem_cons, List.not_mem_nil,
          or_false] at hr
        rcases hr with hr | hr
        · subst hr
          simp [indexRequest, Request.indexMetadata] at hmd
          exact hmd
        · exact ih (i + 1) (n + 1) r hr md hmd
      | false =>
        rw [hb] at hr
        cases hb2 : indexDocResult (env (n + 2)) with
        | error e =>
          rw [hb2] at hr
          simp only [List.mem_cons, List.not_mem_nil, or_false] at hr
          rcases hr with hr | hr | hr
          · subst hr
            simp [indexRequest, Request.indexMetadata] at hmd
            exact hmd
          · subst hr
            simp [deleteRequest, Request.indexMetadata] at hmd
          · subst hr
            simp [indexRequest, Request.indexMetadata] at hmd
            exact hmd
        | ok b2 =>
          rw [hb2] at hr
          simp only [List.mem_append, List.mem_cons, List.not_mem_nil,
            or_false] at hr
          rcases hr with (hr | hr | hr) | hr
          · subst hr
            simp [indexRequest, Request.indexMetadata] at hmd
            exact hmd
          · subst hr
            simp [deleteRequest, Request.indexMetadata] at hmd
          · subst hr
            simp [indexRequest, Request.indexMetadata] at hmd
            exact hmd
          · exact ih (i + 1) (n + 3) r hr md hmd

/-- When positions `i..i+m-1` have metadata but position `i+m` raises
`IndexError` (and index responses never raise), the loop processes the first
`m` items normally — issuing exactly their spec trace — and then propagates
the `IndexError` before issuing any request for the `m`-th item. -/
theorem addLoop_indexError (env : Nat → HttpResponse)
    (metadatas : Option (List Metadata))
    (He : ∀ t, indexRespOk (env t) = true)
    (texts : List String) :
    ∀ (m i n : Nat),
    (∀ j, j < m → ∃ md, getMetadataAt metadatas (i + j) = .ok md) →
    getMetadataAt metadatas (i + m) = .error .indexError →
    m < texts.length →
    addLoop env metadatas texts i n =
      (.error .indexError, specAddTrace env metadatas (texts.take m) i n) := by
  induction texts with
  | nil =>
    intro m i n _ _ hlt
    cases hlt
  | cons doc rest ih =>
    intro m i n Hm Hbad hlt
    cases m with
    | zero =>
      rw [Nat.add_zero] at Hbad
      unfold addLoop
      rw [Hbad]
      rfl
    | succ m' =>
      obtain ⟨md, hmd⟩ := Hm 0 (Nat.succ_pos m')
      rw [Nat.add_zero] at hmd
      obtain ⟨b, hb⟩ := indexRespOk_exists (He n)
      have Hm2 : ∀ j, j < m' → ∃ md, getMetadataAt metadatas (i + 1 + j) = .ok md := by
        intro j hj
        have := Hm (j + 1) (Nat.succ_lt_succ hj)
        simpa [Nat.add_comm, Nat.add_assoc, Nat.add_left_comm] using this
      have Hbad2 : getMetadataAt metadatas (i + 1 + m') = .error .indexError := by
        have : i + 1 + m' = i + (m' + 1) := by omega
        rw [this]
        exact Hbad
      have hlt2 : m' < rest.length := Nat.lt_of_succ_lt_succ hlt
      cases b with
      | true =>
        have hc : upsertReturnsFalse (env n) = false := by
          unfold upsertReturnsFalse; rw [hb]
        simp only [List.take_succ_cons, addLoop, specAddTrace, hmd, addOne, hb,
          hc, specItemTrace, Except.toOption, Option.getD, Bool.false_eq_true,
          ite_false, ih m' (i + 1) (n + 1) Hm2 Hbad2 hlt2]
      | false =>
        have hc : upsertReturnsFalse (env n) = true := by
          unfold upsertReturnsFalse; rw [hb]
        obtain ⟨b2, hb2⟩ := indexRespOk_exists (He (n + 2))
        simp only [List.take_succ_cons, addLoop, specAddTrace, hmd, addOne, hb,
          hb2, hc, specItemTrace, Except.toOption, Option.getD, ite_true,
          ih m' (i + 1) (n + 3) Hm2 Hbad2 hlt2]

/-- C10: (a) when `metadatas` is omitted/`None` or the empty list, every
index request `add_texts` issues carries empty metadata; (b) when `metadatas`
is a non-empty list with fewer entries than `texts`, `add_texts` raises
`IndexError` partway through, after issuing exactly the requests for the
texts whose positions had a matching metadata entry. -/
theorem addTexts_metadatas_handling :
    (∀ (texts : List String) (env : Nat → HttpResponse)
       (metadatas : Option (List Metadata)),
      metadatas = none ∨ metadatas = some [] →
      ∀ r ∈ (add_texts texts metadatas env).2, ∀ md,
        r.indexMetadata = some md → md = []) ∧
    (∀ (texts : List String) (l : List Metadata) (env : Nat → HttpResponse),
      l ≠ [] → l.length < texts.length →
      (∀ t, indexRespOk (env t) = true) →
      (add_texts texts (some l) env).1 = .error .indexError ∧
      (add_texts texts (some l) env).2 =
        specAddTrace env (some l) (texts.take l.length) 0 0) := by
  constructor
  · intro texts env metadatas hfalsy r hr md hmd
    have hm : ∀ i, getMetadataAt metadatas i = .ok [] := by
      intro i
      rcases hfalsy with rfl | rfl <;> rfl
    have hlog : (add_texts texts metadatas env).2 =
        (addLoop env metadatas texts 0 0).2 := by
      unfold add_texts
      cases addLoop env metadatas texts 0 0 with
      | mk res log =>
        cases res with
        | ok u => cases u; rfl
        | error e => rfl
    exact addLoop_meta_empty env metadatas hm texts 0 0 r (hlog ▸ hr) md hmd
  · intro texts l env hne hlt He
    obtain ⟨x, xs, rfl⟩ := List.exists_cons_of_ne_nil hne
    have Hm : ∀ j, j < (x :: xs).length →
        ∃ md, getMetadataAt (some (x :: xs)) (0 + j) = .ok md := by
      intro j hj
      refine ⟨(x :: xs).get ⟨j, by simpa using hj⟩, ?_⟩
      simp only [Nat.zero_add, getMetadataAt]
      rw [List.get?_eq_get (by simpa using hj)]
    have Hbad : getMetadataAt (some (x :: xs)) (0 + (x :: xs).length) =
        .error .indexError := by
      simp only [Nat.zero_add, getMetadataAt]
      rw [List.get?_eq_none.mpr (Nat.le_refl _)]
    have h := addLoop_indexError env (some (x :: xs)) He texts
      (x :: xs).length 0 0 Hm Hbad hlt
    constructor
    · simp [add_texts, h]
    · simp [add_texts, h]

/-- Witness for C10: with `metadatas = None` the issued index request has
empty metadata; with two texts and one metadata entry `add_texts` raises
`IndexError` after processing only the first text. -/
theorem addTexts_metadatas_handling_witness :
    ([] : Metadata) = [] ∧
    ((add_texts ["a", "b"] (some [[]]) allOkEnv).1 = .error .indexError ∧
     (add_texts ["a", "b"] (some [[]]) allOkEnv).2 =
       specAddTrace allOkEnv (some [[]]) (["a", "b"].take 1) 0 0) :=
  ⟨addTexts_metadatas_handling.1 ["hello world"] allOkEnv none (Or.inl rfl)
     (indexRequest (derivedId "hello world") "hello world" [])
     (List.mem_singleton.mpr rfl) [] rfl,
   addTexts_metadatas_handling.2 ["a", "b"] [[]] allOkEnv
     (List.cons_ne_nil _ _) (by decide) (fun _ => rfl)⟩
